import Mathlib

/-!
Shallow embedding of the game engine in `src/app.py` (a Streamlit grid game:
map generation, placement, turn resolution, enemy pursuit).  Python's `random`
is modelled by an abstract deterministic stream of naturals: `random.Random(s)`
corresponds to a stream `ss : Nat → Nat` read from position 0, and the
module-level (unseeded) `random` to a separate stream.  Draw primitives
(`randint`, `choice`, `sample`, `shuffle`, the `random() < 0.12` test) are
deterministic functions of the stream; fallible draws (empty population,
sample size too large) return `none`, matching the source raising an exception.
-/

set_option linter.unusedVariables false

namespace App

/-- A grid cell row-major matrix, `0` = floor, `1` = wall (as in the source). -/
abbrev Grid := List (List Nat)

/-- An `(x, y)` coordinate pair; `Int` because candidate moves may go negative. -/
abbrev Pos := Int × Int

/-- `MAP_W = 28` in the source. -/
def MAP_W : Nat := 28

/-- `MAP_H = 18` in the source. -/
def MAP_H : Nat := 18

/-- Deterministic model of a Python `random` stream: an infinite sequence of
naturals together with a read position. -/
structure RNG where
  stream : Nat → Nat
  pos : Nat

/-- Draw one natural and advance the stream. -/
def RNG.next (r : RNG) : Nat × RNG :=
  (r.stream r.pos, ⟨r.stream, r.pos + 1⟩)

/-- Model of `rnd.randint(lo, hi)`: a value in `[lo, hi]` (for `lo ≤ hi`). -/
def randint (lo hi : Nat) (r : RNG) : Nat × RNG :=
  let (n, r') := r.next
  (lo + n % (hi - lo + 1), r')

/-- Model of the test `rnd.random() < 0.12`: one draw, reduced mod 100 and
compared with 12. -/
def randLt12 (r : RNG) : Bool × RNG :=
  let (n, r') := r.next
  (n % 100 < 12, r')

/-- Model of `random.choice(l)`: uniform index into `l`; `none` on the empty
list (the source would raise `IndexError`). -/
def choice (l : List Pos) (r : RNG) : Option (Pos × RNG) :=
  match l with
  | [] => none
  | a :: as =>
    let (n, r') := r.next
    some ((a :: as).getD (n % (a :: as).length) a, r')

/-- Model of `rnd.sample(l, k)`: `k` draws without replacement; `none` when the
population is exhausted (the source would raise `ValueError` for `k > len(l)`). -/
def sample (l : List Pos) (k : Nat) (r : RNG) : Option (List Pos × RNG) :=
  match k with
  | 0 => some ([], r)
  | k' + 1 =>
    match l with
    | [] => none
    | a :: as =>
      let (n, r') := r.next
      let i := n % (a :: as).length
      let x := (a :: as).getD i a
      (sample ((a :: as).eraseIdx i) k' r').map (fun p => (x :: p.1, p.2))

/-- Swap the entries at indices `i` and `j` of a list. -/
def swap (l : List Pos) (i j : Nat) : List Pos :=
  let a := l.getD i (0, 0)
  let b := l.getD j (0, 0)
  (l.set i b).set j a

/-- Fisher-Yates loop of `random.shuffle`: iterate the index from `i` down
to 1, each time drawing `j ≤ i` and swapping. -/
def shuffleAux : List Pos → Nat → RNG → List Pos × RNG
  | l, 0, r => (l, r)
  | l, i + 1, r =>
    let (n, r') := r.next
    shuffleAux (swap l (i + 1) (n % (i + 2))) i r'

/-- Model of `random.shuffle(l)` (returning the permuted list). -/
def shuffle (l : List Pos) (r : RNG) : List Pos × RNG :=
  shuffleAux l (l.length - 1) r

/-- `m[y][x]`; reads outside the stored lists default to `1` (wall).  All
in-range uses match the source; the source would raise on an out-of-range read. -/
def gridGet (m : Grid) (y x : Nat) : Nat :=
  (m.getD y []).getD x 1

/-- `m[y][x] = v` (no-op outside the stored lists, like `List.set`). -/
def gridSet (m : Grid) (y x v : Nat) : Grid :=
  m.set y ((m.getD y []).set x v)

/-- The all-zero `MAP_H × MAP_W` matrix built at the top of `make_map`. -/
def initGrid : Grid := List.replicate MAP_H (List.replicate MAP_W 0)

/-- The border-wall pass of `make_map`: `m[0][x] = m[H-1][x] = 1` for all `x`,
then `m[y][0] = m[y][W-1] = 1` for all `y`. -/
def borderGrid : Grid :=
  let m1 := (List.range MAP_W).foldl
    (fun m x => gridSet (gridSet m 0 x 1) (MAP_H - 1) x 1) initGrid
  (List.range MAP_H).foldl
    (fun m y => gridSet (gridSet m y 0 1) y (MAP_W - 1) 1) m1

/-- A room record `(rx, ry, rw, rh)`. -/
abbrev Room := Nat × Nat × Nat × Nat

/-- Carve a room: `m[yy][xx] = 0` for `yy ∈ [ry, ry+rh)`, `xx ∈ [rx, rx+rw)`. -/
def carveRoom (m : Grid) (rx ry rw rh : Nat) : Grid :=
  (List.range rh).foldl
    (fun m i => (List.range rw).foldl (fun m j => gridSet m (ry + i) (rx + j) 0) m) m

/-- One iteration of the room loop in `make_map`: draw `rw ∈ [4,8]`,
`rh ∈ [3,6]`, `rx ∈ [2, W-rw-2]`, `ry ∈ [2, H-rh-2]`, record the room, carve it. -/
def roomStep (acc : Grid × List Room × RNG) (i : Nat) : Grid × List Room × RNG :=
  let m := acc.1
  let rooms := acc.2.1
  let r0 := acc.2.2
  let rw := (randint 4 8 r0).1
  let r1 := (randint 4 8 r0).2
  let rh := (randint 3 6 r1).1
  let r2 := (randint 3 6 r1).2
  let rx := (randint 2 (MAP_W - rw - 2) r2).1
  let r3 := (randint 2 (MAP_W - rw - 2) r2).2
  let ry := (randint 2 (MAP_H - rh - 2) r3).1
  let r4 := (randint 2 (MAP_H - rh - 2) r3).2
  (carveRoom m rx ry rw rh, rooms ++ [(rx, ry, rw, rh)], r4)

/-- One iteration of the interior-scatter loop: draw `x ∈ [1, W-2]`,
`y ∈ [1, H-2]`, then with the `random() < 0.12` test set `m[y][x] = 1`. -/
def scatterStep (acc : Grid × RNG) (i : Nat) : Grid × RNG :=
  let m := acc.1
  let r0 := acc.2
  let x := (randint 1 (MAP_W - 2) r0).1
  let r1 := (randint 1 (MAP_W - 2) r0).2
  let y := (randint 1 (MAP_H - 2) r1).1
  let r2 := (randint 1 (MAP_H - 2) r1).2
  let p := (randLt12 r2).1
  let r3 := (randLt12 r2).2
  (if p then gridSet m y x 1 else m, r3)

/-- One iteration of the corridor loop: take rooms `i` and `i+1`, compute their
centers, carve the horizontal then the vertical leg of an L between them. -/
def corridorStep (rooms : List Room) (m : Grid) (i : Nat) : Grid :=
  let ra := rooms.getD i (0, 0, 0, 0)
  let rb := rooms.getD (i + 1) (0, 0, 0, 0)
  let x1 := ra.1 + ra.2.2.1 / 2
  let y1 := ra.2.1 + ra.2.2.2 / 2
  let x2 := rb.1 + rb.2.2.1 / 2
  let y2 := rb.2.1 + rb.2.2.2 / 2
  let m2 := (List.range (max x1 x2 - min x1 x2 + 1)).foldl
    (fun m k => gridSet m y1 (min x1 x2 + k) 0) m
  (List.range (max y1 y2 - min y1 y2 + 1)).foldl
    (fun m k => gridSet m (min y1 y2 + k) x2 0) m2

/-- `make_map(seed)`: border walls, six random rooms, eighty scatter draws,
then L-shaped corridors between consecutive room centers.  The seed is
represented by the stream of the `random.Random(seed)` instance the function
creates. -/
def make_map (ss : Nat → Nat) : Grid :=
  let acc := (List.range 6).foldl roomStep (borderGrid, [], RNG.mk ss 0)
  let rooms := acc.2.1
  let m2 := ((List.range 80).foldl scatterStep (acc.1, acc.2.2)).1
  (List.range (rooms.length - 1)).foldl (corridorStep rooms) m2

/-- `free_positions(mapdata)`: the `(x, y)` with `m[y][x] == 0`, `y` outer,
`x` inner (row-major). -/
def free_positions (m : Grid) : List Pos :=
  (List.range MAP_H).flatMap fun y =>
    ((List.range MAP_W).filter (fun x => gridGet m y x == 0)).map
      (fun (x : Nat) => ((x : Int), (y : Int)))

/-- `can_move(mapdata, pos)`: inside the `MAP_W × MAP_H` bounds and on a
floor cell. -/
def can_move (m : Grid) (p : Pos) : Bool :=
  if p.1 < 0 ∨ p.2 < 0 ∨ (MAP_W : Int) ≤ p.1 ∨ (MAP_H : Int) ≤ p.2 then false
  else gridGet m p.2.toNat p.1.toNat == 0

/-- The session fields of `st.session_state` that the engine reads and writes. -/
structure GameState where
  map : Grid
  player : Pos
  altar : Pos
  coins : List Pos
  total_runas : Nat
  runas_positions : List Pos
  enemies : List Pos
  runas_collected : Nat
  moves : Nat
  msg : String
  victory : Bool
  game_over : Bool
deriving DecidableEq, Repr

/-- The initial-session message (line 160 of the source). -/
def initMsg : String := "Recoge 3 runas y vuelve al altar. Usa las flechas ← ↑ ↓ →"

/-- The restart message (line 332 of the source). -/
def restartMsg : String := "Partida reiniciada. ¡Adelante!"

/-- The blocked-move message. -/
def blockedMsg : String := "Te has chocado."

/-- The defeat message. -/
def defeatMsg : String := "Un guardián te atrapó. FIN."

/-- The victory message. -/
def victoryMsg : String := "¡Victoria! Las runas han vuelto al altar."

/-- The altar border band: `p[0]<3 or p[0]>MAP_W-4 or p[1]<3 or p[1]>MAP_H-4`. -/
def inBand (p : Pos) : Bool :=
  decide (p.1 < 3 ∨ (MAP_W : Int) - 4 < p.1 ∨ p.2 < 3 ∨ (MAP_H : Int) - 4 < p.2)

/-- Episode generation, shared verbatim (but for the message) by the initial
session block (lines 146-162) and the restart handler (lines 320-334):
`make_map` from the seeded stream `ss`, then player and altar drawn with the
module-level unseeded stream `g`, then coins, rune flags and enemies sampled
from a fresh `random.Random(seed)` stream (`ss` restarted at position 0). -/
def genEpisode (ss : Nat → Nat) (g : RNG) (msg0 : String) : Option GameState :=
  let m := make_map ss
  let free := free_positions m
  (choice free g).bind fun pg =>
  (choice (free.filter inBand) pg.2).bind fun ag =>
  let player := pg.1
  let altar := ag.1
  let rnd : RNG := RNG.mk ss 0
  (sample (free.filter (fun p => decide (p ≠ player ∧ p ≠ altar))) 7 rnd).bind fun cr =>
  let coins := cr.1
  (sample coins 3 cr.2).bind fun rr =>
  (sample (free.filter (fun p => decide (p ∉ coins ∧ p ≠ player ∧ p ≠ altar))) 4 rr.2).map fun er =>
  { map := m, player := player, altar := altar, coins := coins,
    total_runas := 3, runas_positions := rr.1, enemies := er.1,
    runas_collected := 0, moves := 0, msg := msg0,
    victory := false, game_over := false }

/-- The runtime error a shadowed name raises. -/
inductive PyError where
  | unboundLocalError : PyError
deriving DecidableEq, Repr

/-- Faithful model of `enemy_step(e, player, mapdata)` as executed: the
fallback loop body assigns `np = (ex+d[0], ey+d[1])`, which under Python
scoping makes `np` local to the whole function, so the first statement
`dx = np.sign(px - ex)` raises `UnboundLocalError` on every call, before any
candidate is computed and before any stream draw. -/
def enemy_step (e player : Pos) (m : Grid) : Except PyError Pos :=
  Except.error PyError.unboundLocalError

/-- Modelled from the spec and the evident intent of `enemy_step` (reading
`np.sign` as the shadowed numpy import): per-axis sign deltas toward the
player; candidates in order diagonal, horizontal, vertical (each only if
walkable), then the walkable cells of a shuffled cardinal scan; the first
walkable candidate wins, else stay.  The shuffle draws from the unseeded
module-level stream `g`. -/
def enemy_step_i (e player : Pos) (m : Grid) (g : RNG) : Pos × RNG :=
  let ex := e.1
  let ey := e.2
  let dx := (player.1 - ex).sign
  let dy := (player.2 - ey).sign
  let c1 : List Pos := if dx ≠ 0 ∧ can_move m (ex + dx, ey) = true
    then [(ex + dx, ey)] else []
  let c2 : List Pos := if dy ≠ 0 ∧ can_move m (ex, ey + dy) = true
    then c1 ++ [(ex, ey + dy)] else c1
  let c3 : List Pos := if dx ≠ 0 ∧ dy ≠ 0 ∧ can_move m (ex + dx, ey + dy) = true
    then (ex + dx, ey + dy) :: c2 else c2
  let dg := shuffle [(1, 0), (-1, 0), (0, 1), (0, -1)] g
  let c4 : List Pos := c3 ++
    ((dg.1.map (fun d => (ex + d.1, ey + d.2))).filter (fun q => can_move m q))
  match c4.find? (fun q => can_move m q) with
  | some c => (c, dg.2)
  | none => ((ex, ey), dg.2)

/-- The committed-move and pickup phase of `attempt_move` (lines 205-215):
move the player, bump `moves`, clear the message, then resolve pickup
(remove the coin; a rune bumps `runas_collected` and reports progress, a
decoy reports a fragment). -/
def movePickup (s : GameState) (dx dy : Int) : GameState :=
  let np2 : Pos := (s.player.1 + dx, s.player.2 + dy)
  let s1 := { s with player := np2, moves := s.moves + 1, msg := "" }
  if s1.player ∈ s1.coins then
    let coins' := s1.coins.erase s1.player
    if s1.player ∈ s1.runas_positions then
      { s1 with
        coins := coins',
        runas_collected := s1.runas_collected + 1,
        msg := "Runa recogida (" ++ toString (s1.runas_collected + 1) ++ "/" ++
          toString s1.total_runas ++ ")" }
    else
      { s1 with coins := coins', msg := "Fragmento recogido." }
  else s1

/-- The two terminal `if` statements closing `attempt_move` (lines 222-229):
first the collision check (player caught by an enemy), then — independently,
the source has no `elif` — the victory check. -/
def terminalChecks (s : GameState) : GameState :=
  let s4 := if s.player ∈ s.enemies then
      { s with game_over := true, msg := defeatMsg } else s
  if s4.total_runas ≤ s4.runas_collected ∧ s4.player = s4.altar then
    { s4 with victory := true, game_over := true, msg := victoryMsg } else s4

/-- Faithful model of `attempt_move(dx, dy)` as executed.  The second
component records the exception, if any, that escapes the call; the first is
the session state as left behind (Python mutates `st.session_state` field by
field, so mutations made before an exception persist).  With a committed move
and a nonempty enemy list the first `enemy_step` call raises, so the enemy
list, the collision check and the victory check are never reached. -/
def attempt_move (s : GameState) (dx dy : Int) : GameState × Option PyError :=
  if s.game_over then (s, none)
  else if can_move s.map (s.player.1 + dx, s.player.2 + dy) = false then
    ({ s with msg := blockedMsg }, none)
  else
    let s2 := movePickup s dx dy
    match s2.enemies with
    | [] => (terminalChecks { s2 with enemies := ([] : List Pos) }, none)
    | _ :: _ => (s2, some PyError.unboundLocalError)

/-- Fold a sequence of directional intents through the faithful
`attempt_move`, keeping the persisted session state. -/
def runIntents (s : GameState) (ds : List (Int × Int)) : GameState :=
  ds.foldl (fun s d => (attempt_move s d.1 d.2).1) s

/-! ### Concrete fixtures for witnesses and counterexamples -/

/-- The all-zero stream. -/
def zerosStream : Nat → Nat := fun _ => 0

/-- The all-one stream. -/
def onesStream : Nat → Nat := fun _ => 1

/-- An unseeded-stream value reading the all-zero stream. -/
def gZero : RNG := RNG.mk zerosStream 0

/-- An unseeded-stream value reading the all-one stream. -/
def gOne : RNG := RNG.mk onesStream 0

/-- A `MAP_W × MAP_H` grid that is wall on the border and floor inside. -/
def openGrid : Grid :=
  (List.range MAP_H).map fun y =>
    (List.range MAP_W).map fun x =>
      if y = 0 ∨ y = MAP_H - 1 ∨ x = 0 ∨ x = MAP_W - 1 then 1 else 0

/-- A placeholder state (only used as a `getD` default). -/
def emptyState : GameState :=
  { map := [], player := (0, 0), altar := (0, 0), coins := [], total_runas := 3,
    runas_positions := [], enemies := [], runas_collected := 0, moves := 0,
    msg := "", victory := false, game_over := false }

/-- The episode generated from the all-zero seeded stream and the all-zero
unseeded stream. -/
def epZero : GameState :=
  (genEpisode zerosStream gZero initMsg).getD emptyState

/-- A state one step short of a simultaneous win-and-capture turn: the player
stands next to the altar with all runes collected, and a guard stands on the
other side of the altar tile. -/
def cs1 : GameState :=
  { map := openGrid, player := (9, 10), altar := (10, 10), coins := [],
    total_runas := 3, runas_positions := [], enemies := [(11, 10)],
    runas_collected := 3, moves := 0, msg := "", victory := false,
    game_over := false }

/-- A terminal state (with an empty message field). -/
def termSt : GameState :=
  { map := openGrid, player := (5, 5), altar := (2, 2), coins := [(7, 7)],
    total_runas := 3, runas_positions := [(7, 7)], enemies := [(3, 3)],
    runas_collected := 1, moves := 9, msg := "", victory := false,
    game_over := true }

/-- A live state with the player standing next to the border wall. -/
def blockSt : GameState :=
  { map := openGrid, player := (1, 1), altar := (2, 2), coins := [],
    total_runas := 3, runas_positions := [], enemies := [(5, 5)],
    runas_collected := 0, moves := 0, msg := "", victory := false,
    game_over := false }

/-! ### Claim theorems -/

/-- Claim C4 counterexample.  The claim says a post-terminal `apply_intent` sets an
informational message.  In the source, `attempt_move` returns immediately on
`game_over` without assigning `msg`: at a terminal state whose message field is
the empty string, the call returns the state — message included — unchanged,
so no informational message is set. -/
theorem c4_counterexample :
    attempt_move termSt 1 0 = (termSt, none) ∧ termSt.msg = "" := by
  constructor
  · decide
  · rfl

/-- Claim C4 (amended): once `game_over` is true, `attempt_move` returns with every
state field unchanged, including the message; no exception escapes. -/
theorem c4_terminal_noop (s : GameState) (dx dy : Int) (h : s.game_over = true) :
    attempt_move s dx dy = (s, none) := by
  simp [attempt_move, h]

/-- Witness for `c4_terminal_noop` at the concrete terminal state. -/
theorem c4_witness :
    termSt.game_over = true ∧ attempt_move termSt 0 1 = (termSt, none) :=
  ⟨by decide, c4_terminal_noop termSt 0 1 (by decide)⟩

/-- Claim C5: on a rejected move (candidate out of bounds or wall) from a
non-terminal state, the player position, the moves counter, `runas_collected`,
the pickup list and the enemy list are unchanged, and the message is the
blocked-move message; no exception escapes, and enemies never move since the
enemy loop is not reached. -/
theorem c5_blocked_move (s : GameState) (dx dy : Int)
    (hg : s.game_over = false)
    (hb : can_move s.map (s.player.1 + dx, s.player.2 + dy) = false) :
    (attempt_move s dx dy).1.player = s.player ∧
    (attempt_move s dx dy).1.moves = s.moves ∧
    (attempt_move s dx dy).1.runas_collected = s.runas_collected ∧
    (attempt_move s dx dy).1.coins = s.coins ∧
    (attempt_move s dx dy).1.enemies = s.enemies ∧
    (attempt_move s dx dy).1.msg = blockedMsg ∧
    (attempt_move s dx dy).2 = none := by
  simp [attempt_move, hg, hb]

/-- Witness for `c5_blocked_move`: in `blockSt` the player at `(1, 1)` pushes
into the border wall at `(0, 1)`. -/
theorem c5_witness :
    blockSt.game_over = false ∧
    can_move blockSt.map (blockSt.player.1 + (-1), blockSt.player.2 + 0) = false ∧
    ((attempt_move blockSt (-1) 0).1.player = blockSt.player ∧
     (attempt_move blockSt (-1) 0).1.moves = blockSt.moves ∧
     (attempt_move blockSt (-1) 0).1.runas_collected = blockSt.runas_collected ∧
     (attempt_move blockSt (-1) 0).1.coins = blockSt.coins ∧
     (attempt_move blockSt (-1) 0).1.enemies = blockSt.enemies ∧
     (attempt_move blockSt (-1) 0).1.msg = blockedMsg ∧
     (attempt_move blockSt (-1) 0).2 = none) :=
  ⟨by decide, by decide, c5_blocked_move blockSt (-1) 0 (by decide) (by decide)⟩

/-- Claim C6: the claim describes the preference order of the enemy AI's returned
position, and in particular that from `(3, 3)` pursuing a player at `(3, 4)`
(a floor cell) the computed step is `(3, 4)`.  As executed, `enemy_step` never
returns a position: the loop assignment to `np` shadows the numpy import, so
the very first statement raises `UnboundLocalError`.  The second conjunct
records that the intended logic (`enemy_step_i`, the code read past the
shadowing slip) does give the claimed vertical step. -/
theorem c6_enemy_step_raises :
    enemy_step (3, 3) (3, 4) openGrid = Except.error PyError.unboundLocalError ∧
    (enemy_step_i (3, 3) (3, 4) openGrid gZero).1 = (3, 4) := by
  constructor
  · rfl
  · decide

/-- Claim C10: the claim says the enemy AI returns either the current position or an
in-bounds floor cell at Chebyshev distance 1.  As executed, `enemy_step`
returns no position at all — it raises `UnboundLocalError` on every call.  The
second conjunct records that the intended logic steps diagonally from `(5, 5)`
toward `(9, 2)` to the floor cell `(6, 4)` at Chebyshev distance 1. -/
theorem c10_enemy_step_no_return :
    enemy_step (5, 5) (9, 2) openGrid = Except.error PyError.unboundLocalError ∧
    (enemy_step_i (5, 5) (9, 2) openGrid gZero).1 = (6, 4) := by
  constructor
  · rfl
  · decide

/-! ### Frame lemmas for the move/pickup phase -/

@[simp]
theorem movePickup_map (s : GameState) (dx dy : Int) :
    (movePickup s dx dy).map = s.map := by
  simp only [movePickup]
  split_ifs <;> rfl

@[simp]
theorem movePickup_player (s : GameState) (dx dy : Int) :
    (movePickup s dx dy).player = (s.player.1 + dx, s.player.2 + dy) := by
  simp only [movePickup]
  split_ifs <;> rfl

@[simp]
theorem movePickup_altar (s : GameState) (dx dy : Int) :
    (movePickup s dx dy).altar = s.altar := by
  simp only [movePickup]
  split_ifs <;> rfl

@[simp]
theorem movePickup_total (s : GameState) (dx dy : Int) :
    (movePickup s dx dy).total_runas = s.total_runas := by
  simp only [movePickup]
  split_ifs <;> rfl

@[simp]
theorem movePickup_runas_positions (s : GameState) (dx dy : Int) :
    (movePickup s dx dy).runas_positions = s.runas_positions := by
  simp only [movePickup]
  split_ifs <;> rfl

@[simp]
theorem movePickup_enemies (s : GameState) (dx dy : Int) :
    (movePickup s dx dy).enemies = s.enemies := by
  simp only [movePickup]
  split_ifs <;> rfl

@[simp]
theorem terminalChecks_map (s : GameState) : (terminalChecks s).map = s.map := by
  simp only [terminalChecks]
  split_ifs <;> rfl

@[simp]
theorem terminalChecks_player (s : GameState) :
    (terminalChecks s).player = s.player := by
  simp only [terminalChecks]
  split_ifs <;> rfl

@[simp]
theorem terminalChecks_coins (s : GameState) :
    (terminalChecks s).coins = s.coins := by
  simp only [terminalChecks]
  split_ifs <;> rfl

@[simp]
theorem terminalChecks_total (s : GameState) :
    (terminalChecks s).total_runas = s.total_runas := by
  simp only [terminalChecks]
  split_ifs <;> rfl

@[simp]
theorem terminalChecks_runas_positions (s : GameState) :
    (terminalChecks s).runas_positions = s.runas_positions := by
  simp only [terminalChecks]
  split_ifs <;> rfl

@[simp]
theorem terminalChecks_runas_collected (s : GameState) :
    (terminalChecks s).runas_collected = s.runas_collected := by
  simp only [terminalChecks]
  split_ifs <;> rfl

/-- Claim C8: if the player stands in bounds on a floor cell, it still does after
any `attempt_move`, whatever the intent and however the turn ends (no-op,
blocked, crashed in the enemy loop, or completed): every committed candidate
passed the `can_move` gate, and the grid itself is never written. -/
theorem c8_player_on_floor (s : GameState) (dx dy : Int)
    (h : can_move s.map s.player = true) :
    can_move (attempt_move s dx dy).1.map (attempt_move s dx dy).1.player = true := by
  unfold attempt_move
  by_cases hg : s.game_over = true
  · simp [hg, h]
  · have hc : can_move s.map (s.player.1 + dx, s.player.2 + dy) = true ∨
        can_move s.map (s.player.1 + dx, s.player.2 + dy) = false := by
      cases can_move s.map (s.player.1 + dx, s.player.2 + dy) <;> simp
    rcases hc with hc | hc
    · have hb : ¬ can_move s.map (s.player.1 + dx, s.player.2 + dy) = false := by
        simp [hc]
      cases hE : s.enemies with
      | nil => simp [hg, hb, hE, hc]
      | cons e es => simp [hg, hb, hE, hc]
    · simp [hg, hc, h]

/-- Witness for `c8_player_on_floor`: `blockSt`'s player at `(1, 1)` commits a
move to the floor cell `(2, 1)`; the enemy loop then raises, and the persisted
player position is still on floor. -/
theorem c8_witness :
    can_move blockSt.map blockSt.player = true ∧
    can_move (attempt_move blockSt 1 0).1.map (attempt_move blockSt 1 0).1.player
      = true :=
  ⟨by decide, c8_player_on_floor blockSt 1 0 (by decide)⟩

/-- Claim C1, evaluated as executed.  `cs1` is the turn the claim is about:
the player, all three runes collected, steps onto the altar while the guard at
`(11, 10)` stands adjacent, so the pursuit step of spec §4.5 would land it on
the player's altar tile in the same turn.  The claim says such a turn resolves
as a loss (`game_over` true, `victory` false, defeat message).  As executed
the turn resolves as neither loss nor victory: the first `enemy_step` call of
the enemy loop raises `UnboundLocalError` (the loop variable `np` shadows the
numpy import), so `attempt_move` stops right after the move/pickup phase, with
`game_over = false`, `victory = false` and the cleared message persisted — the
collision and victory checks of lines 222-229 are unreachable in every turn
with a nonempty enemy list.  The last two conjuncts record that the win
condition does hold at the crash point, so this really is the claimed
simultaneous-win-and-capture setup. -/
theorem c1_turn_crashes :
    attempt_move cs1 1 0 = (movePickup cs1 1 0, some PyError.unboundLocalError) ∧
    (attempt_move cs1 1 0).1.game_over = false ∧
    (attempt_move cs1 1 0).1.victory = false ∧
    (attempt_move cs1 1 0).1.msg = "" ∧
    cs1.total_runas ≤ (movePickup cs1 1 0).runas_collected ∧
    (movePickup cs1 1 0).player = cs1.altar := by
  decide

set_option maxRecDepth 10000 in
/-- Claim C2 counterexample.  Map generation is seeded, but the player draw comes
from the module-level unseeded `random.choice`: two runs with the same seeded
stream (`zerosStream` both times) but different unseeded streams produce
different player starts, so two independent runs with seed `s` need not
agree on placement. -/
theorem c2_counterexample :
    (genEpisode zerosStream gZero initMsg).map (fun s => s.player) ≠
    (genEpisode zerosStream gOne initMsg).map (fun s => s.player) := by
  decide

set_option maxRecDepth 10000 in
/-- Claim C3 counterexample.  Nothing excludes the altar draw from picking the
player's cell: with the all-zero streams both `random.choice` calls return the
first candidate, and the generated episode has `player = altar = (2, 1)` —
the claimed pairwise distinctness fails for the player/altar pair. -/
theorem c3_counterexample :
    (genEpisode zerosStream gZero initMsg).map
      (fun s => decide (s.player = s.altar)) = some true := by
  decide

/-! ### Properties of the draw primitives and of `free_positions` -/

theorem getD_eq_get {α : Type} (l : List α) (d : α) {i : Nat} (h : i < l.length) :
    l.getD i d = l.get ⟨i, h⟩ := by
  rw [List.getD_eq_getElem?_getD, List.getElem?_eq_getElem h]
  rfl

theorem getD_mem_of_lt {α : Type} {l : List α} {i : Nat} (h : i < l.length) (d : α) :
    l.getD i d ∈ l := by
  rw [getD_eq_get l d h]
  exact l.get_mem i h

theorem not_get_mem_eraseIdx {α : Type} {l : List α} {i : Nat} (hi : i < l.length)
    (hnd : l.Nodup) : l.get ⟨i, hi⟩ ∉ l.eraseIdx i := by
  intro hmem
  rw [List.mem_eraseIdx_iff_getElem] at hmem
  obtain ⟨j, hj, hne, hEq⟩ := hmem
  rw [List.get_eq_getElem] at hEq
  exact hne (hnd.getElem_inj_iff.1 hEq)

/-- A successful `choice` returns a member of the population. -/
theorem choice_mem {l : List Pos} {r r' : RNG} {p : Pos}
    (h : choice l r = some (p, r')) : p ∈ l := by
  cases l with
  | nil => simp [choice] at h
  | cons a as =>
    simp only [choice, RNG.next, Option.some.injEq, Prod.mk.injEq] at h
    obtain ⟨hp, -⟩ := h
    rw [← hp]
    exact getD_mem_of_lt (Nat.mod_lt _ (by simp)) a

/-- A successful `sample l k` returns `k` elements drawn from `l`, without
repetition when `l` itself has none. -/
theorem sample_sound : ∀ (k : Nat) {l xs : List Pos} {r r' : RNG},
    sample l k r = some (xs, r') →
    xs.length = k ∧ (∀ p ∈ xs, p ∈ l) ∧ (l.Nodup → xs.Nodup) := by
  intro k
  induction k with
  | zero =>
    intro l xs r r' h
    simp only [sample, Option.some.injEq, Prod.mk.injEq] at h
    obtain ⟨hx, -⟩ := h
    subst hx
    simp
  | succ k ih =>
    intro l xs r r' h
    cases l with
    | nil => simp [sample] at h
    | cons a as =>
      simp only [sample, RNG.next, Option.map_eq_some'] at h
      obtain ⟨⟨ys, r2⟩, hrec, heq⟩ := h
      simp only [Prod.mk.injEq] at heq
      obtain ⟨hxs, -⟩ := heq
      have hilt : (r.stream r.pos) % (a :: as).length < (a :: as).length :=
        Nat.mod_lt _ (by simp)
      obtain ⟨hlen, hsub, hnd⟩ := ih hrec
      subst hxs
      refine ⟨by simp [hlen], ?_, ?_⟩
      · intro q hq
        rcases List.mem_cons.1 hq with hq | hq
        · rw [hq]
          exact getD_mem_of_lt hilt a
        · exact (a :: as).eraseIdx_subset _ (hsub q hq)
      · intro hndl
        refine List.nodup_cons.2 ⟨?_, hnd (hndl.eraseIdx _)⟩
        intro hx
        have hxe := hsub _ hx
        rw [getD_eq_get _ a hilt] at hxe
        exact not_get_mem_eraseIdx hilt hndl hxe

/-- Membership in `free_positions` is exactly walkability. -/
theorem mem_free_positions {m : Grid} {p : Pos} :
    p ∈ free_positions m ↔ can_move m p = true := by
  unfold free_positions can_move
  rw [List.mem_flatMap]
  constructor
  · rintro ⟨y, hy, hp⟩
    rw [List.mem_map] at hp
    obtain ⟨x, hx, rfl⟩ := hp
    rw [List.mem_filter, List.mem_range] at hx
    obtain ⟨hxr, hfloor⟩ := hx
    rw [List.mem_range] at hy
    rw [if_neg]
    · simpa using hfloor
    · simp only [not_or, not_lt, not_le]
      omega
  · intro h
    by_cases hbound :
        p.1 < 0 ∨ p.2 < 0 ∨ ((MAP_W : Nat) : Int) ≤ p.1 ∨ ((MAP_H : Nat) : Int) ≤ p.2
    · rw [if_pos hbound] at h
      exact absurd h (by simp)
    · rw [if_neg hbound] at h
      simp only [not_or, not_lt, not_le] at hbound
      obtain ⟨h1, h2, h3, h4⟩ := hbound
      refine ⟨p.2.toNat, by rw [List.mem_range] ; omega, ?_⟩
      rw [List.mem_map]
      refine ⟨p.1.toNat, ?_, ?_⟩
      · rw [List.mem_filter, List.mem_range]
        exact ⟨by omega, by simpa using h⟩
      · rw [Prod.ext_iff]
        constructor <;> simp [Int.toNat_of_nonneg, h1, h2]

/-- `free_positions` never repeats a coordinate pair. -/
theorem nodup_free_positions (m : Grid) : (free_positions m).Nodup := by
  unfold free_positions
  refine List.nodup_flatMap.2 ⟨?_, ?_⟩
  · intro y hy
    refine List.Nodup.map ?_ (List.Nodup.filter _ (List.nodup_range _))
    intro x1 x2 hx
    simpa using congrArg Prod.fst hx
  · refine (List.nodup_range _).imp ?_
    intro y1 y2 hne
    simp only [Function.onFun, List.disjoint_left]
    rintro q hq1 hq2
    rw [List.mem_map] at hq1 hq2
    obtain ⟨x1, -, rfl⟩ := hq1
    obtain ⟨x2, -, h2⟩ := hq2
    exact hne (by simpa using (congrArg Prod.snd h2).symm)

/-- Claim C3 (amended): in every generated episode — initial creation or restart,
both run the same placement block, here `genEpisode` — all placed entities lie
on floor cells of the generated grid and are pairwise distinct, **except**
that the player start and the altar are drawn independently from the free
list and may coincide. -/
theorem c3_placement (ss : Nat → Nat) (g : RNG) (m0 : String) (s : GameState)
    (h : genEpisode ss g m0 = some s) :
    can_move s.map s.player = true ∧
    can_move s.map s.altar = true ∧
    (∀ p ∈ s.coins, can_move s.map p = true) ∧
    (∀ p ∈ s.enemies, can_move s.map p = true) ∧
    (∀ p ∈ s.runas_positions, p ∈ s.coins) ∧
    s.coins.Nodup ∧ s.enemies.Nodup ∧
    s.player ∉ s.coins ∧ s.altar ∉ s.coins ∧
    s.player ∉ s.enemies ∧ s.altar ∉ s.enemies ∧
    (∀ p ∈ s.coins, p ∉ s.enemies) := by
  simp only [genEpisode, Option.bind_eq_some, Option.map_eq_some'] at h
  obtain ⟨pg, hpg, ag, hag, cr, hcr, rr, hrr, er, her, hs⟩ := h
  subst hs
  have hplayer : pg.1 ∈ free_positions (make_map ss) := choice_mem hpg
  have haltar : ag.1 ∈ free_positions (make_map ss) :=
    (List.mem_filter.1 (choice_mem hag)).1
  obtain ⟨hclen, hcsub, hcnd⟩ := sample_sound 7 hcr
  obtain ⟨hrlen, hrsub, hrnd⟩ := sample_sound 3 hrr
  obtain ⟨helen, hesub, hend⟩ := sample_sound 4 her
  have hcoin : ∀ p ∈ cr.1,
      p ∈ free_positions (make_map ss) ∧ p ≠ pg.1 ∧ p ≠ ag.1 := by
    intro p hp
    have := hcsub p hp
    rw [List.mem_filter] at this
    exact ⟨this.1, by simpa using this.2⟩
  have henemy : ∀ p ∈ er.1,
      p ∈ free_positions (make_map ss) ∧ p ∉ cr.1 ∧ p ≠ pg.1 ∧ p ≠ ag.1 := by
    intro p hp
    have := hesub p hp
    rw [List.mem_filter] at this
    exact ⟨this.1, by simpa using this.2⟩
  refine ⟨mem_free_positions.1 hplayer, mem_free_positions.1 haltar,
    ?_, ?_, hrsub, ?_, ?_, ?_, ?_, ?_, ?_, ?_⟩
  · intro p hp
    exact mem_free_positions.1 (hcoin p hp).1
  · intro p hp
    exact mem_free_positions.1 (henemy p hp).1
  · exact hcnd ((nodup_free_positions _).filter _)
  · exact hend ((nodup_free_positions _).filter _)
  · intro hp
    exact (hcoin _ hp).2.1 rfl
  · intro hp
    exact (hcoin _ hp).2.2 rfl
  · intro hp
    exact (henemy _ hp).2.2.1 rfl
  · intro hp
    exact (henemy _ hp).2.2.2 rfl
  · intro p hp hpe
    exact (henemy _ hpe).2.1 hp

set_option maxRecDepth 10000 in
/-- Witness for `c3_placement` at the concretely generated episode `epZero`. -/
theorem c3_witness :
    genEpisode zerosStream gZero initMsg = some epZero ∧
    (can_move epZero.map epZero.player = true ∧
     can_move epZero.map epZero.altar = true ∧
     (∀ p ∈ epZero.coins, can_move epZero.map p = true) ∧
     (∀ p ∈ epZero.enemies, can_move epZero.map p = true) ∧
     (∀ p ∈ epZero.runas_positions, p ∈ epZero.coins) ∧
     epZero.coins.Nodup ∧ epZero.enemies.Nodup ∧
     epZero.player ∉ epZero.coins ∧ epZero.altar ∉ epZero.coins ∧
     epZero.player ∉ epZero.enemies ∧ epZero.altar ∉ epZero.enemies ∧
     (∀ p ∈ epZero.coins, p ∉ epZero.enemies)) := by
  have h : genEpisode zerosStream gZero initMsg = some epZero := by decide
  exact ⟨h, c3_placement zerosStream gZero initMsg epZero h⟩

/-- Claim C2 (amended): two episode generations with the same seed (the same seeded
stream `ss`) always produce the same grid, since map generation draws only
from `random.Random(seed)`; but the player and altar are drawn from the
unseeded module-level stream, so they may differ between runs.  The seeded
remainder is a function of the seed and those two unseeded draws: whenever the
two runs also agree on player and altar, the pickup set, the rune flags and
the enemy set coincide. -/
theorem c2_seeded_determinism (ss : Nat → Nat) (g1 g2 : RNG) (m1 m2 : String)
    (s1 s2 : GameState)
    (h1 : genEpisode ss g1 m1 = some s1) (h2 : genEpisode ss g2 m2 = some s2) :
    s1.map = s2.map ∧
    (s1.player = s2.player → s1.altar = s2.altar →
      s1.coins = s2.coins ∧ s1.runas_positions = s2.runas_positions ∧
      s1.enemies = s2.enemies) := by
  simp only [genEpisode, Option.bind_eq_some, Option.map_eq_some'] at h1 h2
  obtain ⟨pg1, hpg1, ag1, hag1, cr1, hcr1, rr1, hrr1, er1, her1, hs1⟩ := h1
  obtain ⟨pg2, hpg2, ag2, hag2, cr2, hcr2, rr2, hrr2, er2, her2, hs2⟩ := h2
  subst hs1
  subst hs2
  refine ⟨rfl, ?_⟩
  intro hp ha
  dsimp only at hp ha ⊢
  rw [hp, ha] at hcr1
  obtain rfl := Option.some.inj (hcr1.symm.trans hcr2)
  obtain rfl := Option.some.inj (hrr1.symm.trans hrr2)
  rw [hp, ha] at her1
  obtain rfl := Option.some.inj (her1.symm.trans her2)
  exact ⟨rfl, rfl, rfl⟩

set_option maxRecDepth 10000 in
/-- Witness for `c2_seeded_determinism`, instantiating both runs at the
concretely generated episode `epZero`. -/
theorem c2_witness :
    genEpisode zerosStream gZero initMsg = some epZero ∧
    (epZero.map = epZero.map ∧
     (epZero.player = epZero.player → epZero.altar = epZero.altar →
       epZero.coins = epZero.coins ∧
       epZero.runas_positions = epZero.runas_positions ∧
       epZero.enemies = epZero.enemies)) := by
  have h : genEpisode zerosStream gZero initMsg = some epZero := by decide
  exact ⟨h, c2_seeded_determinism zerosStream gZero gZero initMsg initMsg
    epZero epZero h h⟩

/-! ### The rune-counter invariant (C9) -/

/-- Inductive invariant: the pickup list never repeats a position, and the
collected count plus the number of still-uncollected rune pickups stays within
`total_runas`. -/
def RunesInv (s : GameState) : Prop :=
  s.coins.Nodup ∧
  s.runas_collected + s.coins.countP (fun p => decide (p ∈ s.runas_positions))
    ≤ s.total_runas

theorem countP_erase_of_pos {l : List Pos} {a : Pos} {q : Pos → Bool}
    (hnd : l.Nodup) (ha : a ∈ l) (hq : q a = true) :
    (l.erase a).countP q + 1 = l.countP q := by
  induction l with
  | nil => cases ha
  | cons b bs ih =>
    by_cases hba : b = a
    · subst hba
      rw [List.erase_cons_head, List.countP_cons_of_pos _ _ hq]
    · rcases List.mem_cons.1 ha with hab | hab
      · exact absurd hab.symm hba
      · rw [List.erase_cons_tail (by simpa using hba)]
        by_cases hqb : q b = true
        · rw [List.countP_cons_of_pos _ _ hqb, List.countP_cons_of_pos _ _ hqb]
          have h2 := ih (List.nodup_cons.1 hnd).2 hab
          omega
        · rw [List.countP_cons_of_neg _ _ hqb, List.countP_cons_of_neg _ _ hqb]
          exact ih (List.nodup_cons.1 hnd).2 hab

theorem runesInv_movePickup (s : GameState) (dx dy : Int) (h : RunesInv s) :
    RunesInv (movePickup s dx dy) := by
  obtain ⟨hnd, hle⟩ := h
  unfold movePickup RunesInv
  dsimp only
  split_ifs with h1 h2
  · refine ⟨hnd.erase _, ?_⟩
    dsimp only
    have hcount := countP_erase_of_pos (q := fun p =>
      decide (p ∈ s.runas_positions)) hnd h1 (by simpa using h2)
    omega
  · refine ⟨hnd.erase _, ?_⟩
    dsimp only
    have hcount := (List.erase_sublist
      (l := s.coins) (a := (s.player.1 + dx, s.player.2 + dy))).countP_le
      (fun p => decide (p ∈ s.runas_positions))
    omega
  · exact ⟨hnd, hle⟩

theorem runesInv_terminalChecks (s : GameState) (h : RunesInv s) :
    RunesInv (terminalChecks s) := by
  unfold RunesInv at h ⊢
  rw [terminalChecks_coins, terminalChecks_runas_collected, terminalChecks_total,
    terminalChecks_runas_positions]
  exact h

theorem runesInv_attempt_move (s : GameState) (dx dy : Int) (h : RunesInv s) :
    RunesInv (attempt_move s dx dy).1 := by
  by_cases hg : s.game_over = true
  · have hres : attempt_move s dx dy = (s, none) := by simp [attempt_move, hg]
    rw [hres]
    exact h
  · have hcc : can_move s.map (s.player.1 + dx, s.player.2 + dy) = true ∨
        can_move s.map (s.player.1 + dx, s.player.2 + dy) = false := by
      cases can_move s.map (s.player.1 + dx, s.player.2 + dy) <;> simp
    rcases hcc with hc | hc
    · have hb : ¬ can_move s.map (s.player.1 + dx, s.player.2 + dy) = false := by
        simp [hc]
      cases hE : s.enemies with
      | nil =>
        have hres : (attempt_move s dx dy).1 =
            terminalChecks { movePickup s dx dy with enemies := ([] : List Pos) } := by
          simp [attempt_move, hg, hb, hE, hc]
        rw [hres]
        refine runesInv_terminalChecks _ ?_
        have hmp := runesInv_movePickup s dx dy h
        unfold RunesInv at hmp ⊢
        exact hmp
      | cons e es =>
        have hres : (attempt_move s dx dy).1 = movePickup s dx dy := by
          simp [attempt_move, hg, hb, hE, hc]
        rw [hres]
        exact runesInv_movePickup s dx dy h
    · have hres : (attempt_move s dx dy).1 = { s with msg := blockedMsg } := by
        simp [attempt_move, hg, hc]
      rw [hres]
      obtain ⟨h1, h2⟩ := h
      exact ⟨h1, h2⟩

theorem runesInv_runIntents (s : GameState) (ds : List (Int × Int))
    (h : RunesInv s) : RunesInv (runIntents s ds) := by
  induction ds generalizing s with
  | nil => exact h
  | cons d ds ih =>
    exact ih _ (runesInv_attempt_move s d.1 d.2 h)

theorem runesInv_genEpisode (ss : Nat → Nat) (g : RNG) (m0 : String)
    (s : GameState) (h : genEpisode ss g m0 = some s) : RunesInv s := by
  simp only [genEpisode, Option.bind_eq_some, Option.map_eq_some'] at h
  obtain ⟨pg, hpg, ag, hag, cr, hcr, rr, hrr, er, her, hs⟩ := h
  subst hs
  obtain ⟨hclen, hcsub, hcnd⟩ := sample_sound 7 hcr
  obtain ⟨hrlen, hrsub, hrnd⟩ := sample_sound 3 hrr
  have hcoinsnd : cr.1.Nodup := hcnd ((nodup_free_positions _).filter _)
  refine ⟨hcoinsnd, ?_⟩
  dsimp only
  rw [List.countP_eq_length_filter]
  have hsubf : cr.1.filter (fun p => decide (p ∈ rr.1)) ⊆ rr.1 := by
    intro q hq
    rw [List.mem_filter] at hq
    simpa using hq.2
  have hlen := ((hcoinsnd.filter
    (fun p => decide (p ∈ rr.1))).subperm hsubf).length_le
  omega

/-- Claim C9: within one episode — a state produced by the generation block followed
by any sequence of intents — `runas_collected` never exceeds `total_runas`:
the counter is bumped only when the player's cell is still in the pickup list
and is a flagged rune position, and the pickup is then removed for good, so
each rune position is counted at most once. -/
theorem c9_runes_bounded (ss : Nat → Nat) (g : RNG) (m0 : String)
    (s0 : GameState) (ds : List (Int × Int))
    (h : genEpisode ss g m0 = some s0) :
    (runIntents s0 ds).runas_collected ≤ (runIntents s0 ds).total_runas := by
  have hinv := runesInv_runIntents s0 ds (runesInv_genEpisode ss g m0 s0 h)
  exact le_trans (Nat.le_add_right _ _) hinv.2

set_option maxRecDepth 10000 in
/-- Witness for `c9_runes_bounded`: the concrete episode `epZero`, followed by
two committed moves (the second of which collects the rune at `(3, 1)`). -/
theorem c9_witness :
    genEpisode zerosStream gZero initMsg = some epZero ∧
    (runIntents epZero [(1, 0), (0, 1)]).runas_collected ≤
      (runIntents epZero [(1, 0), (0, 1)]).total_runas := by
  have h : genEpisode zerosStream gZero initMsg = some epZero := by decide
  exact ⟨h, c9_runes_bounded zerosStream gZero initMsg epZero [(1, 0), (0, 1)] h⟩

/-! ### The border invariant (C7) -/

/-- Every cell on the outer border of the grid is wall (`1`). -/
def BorderOK (m : Grid) : Prop :=
  (∀ x < MAP_W, gridGet m 0 x = 1 ∧ gridGet m (MAP_H - 1) x = 1) ∧
  (∀ y < MAP_H, gridGet m y 0 = 1 ∧ gridGet m y (MAP_W - 1) = 1)

theorem getD_set_ne {α : Type} (l : List α) (v d : α) {i j : Nat} (hij : i ≠ j) :
    (l.set i v).getD j d = l.getD j d := by
  rw [List.getD_eq_getElem?_getD, List.getD_eq_getElem?_getD,
    List.getElem?_set_ne hij]

theorem getD_set_self {α : Type} (l : List α) (v d : α) (i : Nat)
    (h : i < l.length) : (l.set i v).getD i d = v := by
  rw [List.getD_eq_getElem?_getD, List.getElem?_set_eq_of_lt _ h]
  rfl

/-- Writing one cell leaves every other cell unchanged. -/
theorem gridGet_gridSet_ne (m : Grid) (v : Nat) {y x y' x' : Nat}
    (h : y' ≠ y ∨ x' ≠ x) :
    gridGet (gridSet m y x v) y' x' = gridGet m y' x' := by
  unfold gridGet gridSet
  rcases h with h | h
  · rw [getD_set_ne _ _ _ (Ne.symm h)]
  · by_cases hyy : y' = y
    · subst hyy
      by_cases hlen : y' < m.length
      · rw [getD_set_self _ _ _ _ hlen]
        exact getD_set_ne _ _ _ (Ne.symm h)
      · rw [List.set_eq_of_length_le (by omega)]
    · rw [getD_set_ne _ _ _ (Ne.symm hyy)]

/-- Writing an interior cell preserves the border invariant. -/
theorem borderOK_set_interior {m : Grid} {y x : Nat} (v : Nat)
    (hx1 : 1 ≤ x) (hx2 : x ≤ MAP_W - 2) (hy1 : 1 ≤ y) (hy2 : y ≤ MAP_H - 2)
    (h : BorderOK m) : BorderOK (gridSet m y x v) := by
  have hW : MAP_W = 28 := rfl
  have hH : MAP_H = 18 := rfl
  obtain ⟨h1, h2⟩ := h
  constructor
  · intro q hq
    constructor
    · rw [gridGet_gridSet_ne _ _ (by omega)]
      exact (h1 q hq).1
    · rw [gridGet_gridSet_ne _ _ (by omega)]
      exact (h1 q hq).2
  · intro q hq
    constructor
    · rw [gridGet_gridSet_ne _ _ (by omega)]
      exact (h2 q hq).1
    · rw [gridGet_gridSet_ne _ _ (by omega)]
      exact (h2 q hq).2

theorem borderOK_borderGrid : BorderOK borderGrid := by
  unfold BorderOK
  decide

theorem foldl_preserve {α σ : Type} (P : σ → Prop) (f : σ → α → σ)
    (l : List α) (s : σ) (h : P s) (hf : ∀ t a, a ∈ l → P t → P (f t a)) :
    P (l.foldl f s) := by
  induction l generalizing s with
  | nil => exact h
  | cons a as ih =>
    exact ih _ (hf s a (List.mem_cons_self a as) h)
      (fun t b hb => hf t b (List.mem_cons_of_mem _ hb))

theorem randint_bounds (lo hi : Nat) (r : RNG) (h : lo ≤ hi) :
    lo ≤ (randint lo hi r).1 ∧ (randint lo hi r).1 ≤ hi := by
  unfold randint RNG.next
  dsimp only
  have := Nat.mod_lt (r.stream r.pos) (y := hi - lo + 1) (by omega)
  omega

/-- The side conditions room drawing guarantees: the carved rectangle stays
strictly inside the border, and the width/height stay in their draw ranges. -/
def RoomOK (rm : Room) : Prop :=
  2 ≤ rm.1 ∧ rm.1 + rm.2.2.1 ≤ MAP_W - 2 ∧ 4 ≤ rm.2.2.1 ∧ rm.2.2.1 ≤ 8 ∧
  2 ≤ rm.2.1 ∧ rm.2.1 + rm.2.2.2 ≤ MAP_H - 2 ∧ 3 ≤ rm.2.2.2 ∧ rm.2.2.2 ≤ 6

/-- Invariant of the room loop: the grid keeps its border and every recorded
room is in range. -/
def RoomsInv (acc : Grid × List Room × RNG) : Prop :=
  BorderOK acc.1 ∧ ∀ rm ∈ acc.2.1, RoomOK rm

theorem borderOK_carveRoom {m : Grid} {rx ry rw rh : Nat}
    (hrx : 2 ≤ rx) (hrxw : rx + rw ≤ MAP_W - 2)
    (hry : 2 ≤ ry) (hryh : ry + rh ≤ MAP_H - 2)
    (h : BorderOK m) : BorderOK (carveRoom m rx ry rw rh) := by
  have hW : MAP_W = 28 := rfl
  have hH : MAP_H = 18 := rfl
  unfold carveRoom
  refine foldl_preserve _ _ _ _ h ?_
  intro t i hi ht
  rw [List.mem_range] at hi
  refine foldl_preserve _ _ _ _ ht ?_
  intro t2 j hj ht2
  rw [List.mem_range] at hj
  exact borderOK_set_interior _ (by omega) (by omega) (by omega) (by omega) ht2

theorem roomStep_preserve (acc : Grid × List Room × RNG) (i : Nat)
    (h : RoomsInv acc) : RoomsInv (roomStep acc i) := by
  have hW : MAP_W = 28 := rfl
  have hH : MAP_H = 18 := rfl
  obtain ⟨hB, hR⟩ := h
  obtain ⟨hrw1, hrw2⟩ := randint_bounds 4 8 acc.2.2 (by omega)
  obtain ⟨hrh1, hrh2⟩ := randint_bounds 3 6 (randint 4 8 acc.2.2).2 (by omega)
  obtain ⟨hrx1, hrx2⟩ := randint_bounds 2
    (MAP_W - (randint 4 8 acc.2.2).1 - 2)
    (randint 3 6 (randint 4 8 acc.2.2).2).2 (by omega)
  obtain ⟨hry1, hry2⟩ := randint_bounds 2
    (MAP_H - (randint 3 6 (randint 4 8 acc.2.2).2).1 - 2)
    (randint 2 (MAP_W - (randint 4 8 acc.2.2).1 - 2)
      (randint 3 6 (randint 4 8 acc.2.2).2).2).2 (by omega)
  unfold roomStep
  dsimp only
  constructor
  · exact borderOK_carveRoom (by omega) (by omega) (by omega) (by omega) hB
  · intro rm hrm
    rcases List.mem_append.1 hrm with hrm | hrm
    · exact hR rm hrm
    · rw [List.mem_singleton] at hrm
      subst hrm
      unfold RoomOK
      dsimp only
      refine ⟨?_, ?_, ?_, ?_, ?_, ?_, ?_, ?_⟩ <;> omega

theorem scatterStep_preserve (acc : Grid × RNG) (i : Nat)
    (h : BorderOK acc.1) : BorderOK (scatterStep acc i).1 := by
  have hW : MAP_W = 28 := rfl
  have hH : MAP_H = 18 := rfl
  obtain ⟨hx1, hx2⟩ := randint_bounds 1 (MAP_W - 2) acc.2 (by omega)
  obtain ⟨hy1, hy2⟩ := randint_bounds 1 (MAP_H - 2)
    (randint 1 (MAP_W - 2) acc.2).2 (by omega)
  unfold scatterStep
  dsimp only
  split
  · exact borderOK_set_interior _ (by omega) (by omega) (by omega) (by omega) h
  · exact h

theorem corridorStep_preserve (rooms : List Room)
    (hRooms : ∀ rm ∈ rooms, RoomOK rm) (m : Grid) (i : Nat)
    (hi : i + 1 < rooms.length) (hB : BorderOK m) :
    BorderOK (corridorStep rooms m i) := by
  have hW : MAP_W = 28 := rfl
  have hH : MAP_H = 18 := rfl
  have hRa := hRooms _ (@getD_mem_of_lt Room rooms i (by omega) (0, 0, 0, 0))
  have hRb := hRooms _ (@getD_mem_of_lt Room rooms (i + 1) hi (0, 0, 0, 0))
  obtain ⟨ha1, ha2, ha3, ha4, ha5, ha6, ha7, ha8⟩ := hRa
  obtain ⟨hb1, hb2, hb3, hb4, hb5, hb6, hb7, hb8⟩ := hRb
  unfold corridorStep
  dsimp only
  refine foldl_preserve _ _ _ _ ?_ ?_
  · refine foldl_preserve _ _ _ _ hB ?_
    intro t k hk ht
    rw [List.mem_range] at hk
    exact borderOK_set_interior _ (by omega) (by omega) (by omega) (by omega) ht
  · intro t k hk ht
    rw [List.mem_range] at hk
    exact borderOK_set_interior _ (by omega) (by omega) (by omega) (by omega) ht

/-- Claim C7: for every seed, every border cell of the grid returned by `make_map`
is wall — room carving and corridor carving only ever write to strictly
interior cells, and the scatter pass writes interior walls. -/
theorem c7_border_invariant (ss : Nat → Nat) : BorderOK (make_map ss) := by
  unfold make_map
  dsimp only
  have hrooms : RoomsInv ((List.range 6).foldl roomStep
      (borderGrid, [], RNG.mk ss 0)) := by
    refine foldl_preserve _ _ _ _ ⟨borderOK_borderGrid, by simp⟩ ?_
    intro t a ha ht
    exact roomStep_preserve t a ht
  have hscatter : BorderOK (((List.range 80).foldl scatterStep
      (((List.range 6).foldl roomStep (borderGrid, [], RNG.mk ss 0)).1,
       ((List.range 6).foldl roomStep (borderGrid, [], RNG.mk ss 0)).2.2)).1) := by
    refine foldl_preserve (fun (t : Grid × RNG) => BorderOK t.1) _ _ _ hrooms.1 ?_
    intro t a ha ht
    exact scatterStep_preserve t a ht
  refine foldl_preserve _ _ _ _ hscatter ?_
  intro t a ha ht
  rw [List.mem_range] at ha
  exact corridorStep_preserve _ hrooms.2 t a (by omega) ht

end App
